import Mathlib

/-!
Shallow embedding of `csv_log.py` (PZEM017 Modbus logging script) and proofs
about its polling loop, register decoding, and log-file creation.

Modelling conventions:
* Machine words read from Modbus registers are `Nat` (each register is a
  16-bit word; no arithmetic in the script can overflow Python integers).
* Python floats are modelled as `ℚ` (the script only divides by 100, shifts,
  adds, and multiplies by 0.1; the claims under study are about the exact
  combination formulas, not about binary rounding).
* Fallible operations return `Except`.  The value carried by `Except.error`
  names the Python exception that escapes the modelled code.
* The filesystem is an explicit state: a list of existing directories and a
  list of files with their contents (lists of CSV records).
-/

deriving instance DecidableEq for Except

/-- Errors raised by the `minimalmodbus` transport, as seen by
`read_pzem_data`: the one exception class the script catches
(`minimalmodbus.IllegalRequestError`) versus any other transport error
(for example `NoResponseError`), kept with its name. -/
inductive ModbusError where
  | illegalRequest
  | other (name : String)
deriving DecidableEq

/-- Python exceptions that can escape the modelled fragments of the script.
`unboundLocal` is an `UnboundLocalError` naming the offending variable;
`modbus e` stands for a transport error object propagating unchanged;
`valueError` and `osError` are the exceptions documented for `log_file`;
`loopFuelExhausted` is a model artifact of the bounded unfolding of the
collision-avoidance while-loop and is proved unreachable below. -/
inductive PyError where
  | unboundLocal (var : String)
  | modbus (e : ModbusError)
  | valueError
  | osError
  | loopFuelExhausted
deriving DecidableEq

/-- One fully decoded sample, in the order the script stacks it into
`row_data = [row_time] + row_values`
(`row_values = [voltage, current, power*0.1, energy, high_voltage_alarm,
low_voltage_alarm]`, lines 52-68 of `csv_log.py`). -/
structure Row where
  row_time : String
  voltage : ℚ
  current : ℚ
  power_w : ℚ
  energy_wh : ℚ
  high_voltage_alarm : Nat
  low_voltage_alarm : Nat
deriving DecidableEq

/-- The `try:`-block of `read_pzem_data` (lines 50-68): eight register reads
in a fixed order, with the decoding arithmetic of the script.  The transport
is a function from register address to a read outcome; a `number_of_decimals=2`
read divides the raw word by 100 (that is what `minimalmodbus` does before
returning), the raw reads return the word itself.  The first failing read
aborts the block with its error, exactly as a raised exception would. -/
def readBody (resp : Nat → Except ModbusError Nat) (now : String) :
    Except ModbusError Row := do
  let v0 ← resp 0x0000
  let voltage : ℚ := (v0 : ℚ) / 100
  let v1 ← resp 0x0001
  let current : ℚ := (v1 : ℚ) / 100
  let power_low ← resp 0x0002
  let power_high ← resp 0x0003
  let power : ℚ := (((power_high <<< 16) + power_low : Nat) : ℚ)
  let energy_low ← resp 0x0004
  let energy_high ← resp 0x0005
  let energy : ℚ := (((energy_high <<< 16) + energy_low : Nat) : ℚ)
  let high_voltage_alarm ← resp 0x0006
  let low_voltage_alarm ← resp 0x0007
  pure { row_time := now
         voltage := voltage
         current := current
         power_w := power * (1 / 10)
         energy_wh := energy
         high_voltage_alarm := high_voltage_alarm
         low_voltage_alarm := low_voltage_alarm }

/-- Full iteration of the generator `read_pzem_data` (lines 37-74), as
`write_results` iterates it.  The generator body is
`try: <reads> except IllegalRequestError: print(...) finally: yield row_data`.

* If every read succeeds, `row_data` is bound and the single `yield`
  delivers it: the iteration produces exactly this row.
* If a read raises `IllegalRequestError`, the except-clause prints the error
  and falls through to `finally`; `row_data` was never assigned, so
  evaluating `yield row_data` raises `UnboundLocalError` out of the
  generator.
* If a read raises any other exception, the `finally` clause runs while that
  exception is propagating; evaluating the unassigned `row_data` there raises
  `UnboundLocalError`, which replaces the in-flight exception (Python keeps
  the original only as the `__context__` of the new one).

So on every failing path the exception that escapes to the caller is
`UnboundLocalError("row_data")`, never the transport error itself. -/
def read_pzem_data (resp : Nat → Except ModbusError Nat) (now : String) :
    Except PyError Row :=
  match readBody resp now with
  | .ok r => .ok r
  | .error _ => .error (.unboundLocal "row_data")

/-- Where (if anywhere) the operator interrupt (`KeyboardInterrupt`) is
delivered during one iteration of the `while True:` loop of `main`
(lines 14-21).  `duringRead` means it arrives while one of the
`instrument.read_register` calls inside the generator body is executing;
`betweenCycles` means the iteration completes normally and the interrupt
arrives before the next iteration starts. -/
inductive InterruptPoint where
  | noIntr
  | duringRead
  | betweenCycles
deriving DecidableEq

/-- One scheduled loop iteration: the transport behaviour for this cycle
and where an interrupt lands, if any. -/
structure CycleInput where
  resp : Nat → Except ModbusError Nat
  intr : InterruptPoint

/-- Observable state of the main loop: the data rows appended to the log so
far (in order), and whether `instrument.serial.close()` has run. -/
structure LoopState where
  written : List Row
  serialClosed : Bool
deriving DecidableEq

/-- How a finite schedule of cycles ends. `exitedOk` is the `break` path of
`main` (the process then returns normally, exit status 0); `crashed e` means
the exception `e` escapes `main` uncaught and terminates the process;
`stillRunning` means the schedule was exhausted with the loop still going. -/
inductive LoopOutcome where
  | exitedOk (s : LoopState)
  | crashed (e : PyError) (s : LoopState)
  | stillRunning (s : LoopState)
deriving DecidableEq

/-- The `while True:` loop of `main` (lines 14-21), run on a finite schedule
of cycle inputs:

```
while True:
    try:
        data_gen = read_pzem_data(instrument)
        write_results(data_gen, log_filepath)
    except KeyboardInterrupt:
        write_results(data_gen, log_filepath)
        instrument.serial.close()
        break
```

* `noIntr`: `write_results` drives the generator; on success it appends the
  one yielded row and the loop continues; on failure the escaping exception
  (always `UnboundLocalError`, see `read_pzem_data`) is not a
  `KeyboardInterrupt`, so the `except` clause does not match and the
  exception crashes `main` with the serial port still open.
* `duringRead`: the `KeyboardInterrupt` is raised inside the try-block of
  the generator body; it does not match `except IllegalRequestError`, the
  `finally: yield row_data` evaluates the unassigned `row_data`, and the
  resulting `UnboundLocalError` escapes `write_results`.  It is not caught
  by `except KeyboardInterrupt` either: the process crashes, the serial
  port is never closed.
* `betweenCycles`: the cycle completed (row appended, generator exhausted);
  the `except KeyboardInterrupt` clause re-runs `write_results` on the
  exhausted generator (which yields nothing, so appends nothing), closes
  the serial port and breaks out of the loop. -/
def runCycles (now : String) : List CycleInput → LoopState → LoopOutcome
  | [], s => .stillRunning s
  | c :: rest, s =>
    match c.intr with
    | .duringRead => .crashed (.unboundLocal "row_data") s
    | .noIntr =>
      match read_pzem_data c.resp now with
      | .ok r => runCycles now rest { s with written := s.written ++ [r] }
      | .error e => .crashed e s
    | .betweenCycles =>
      match read_pzem_data c.resp now with
      | .ok r => .exitedOk { written := s.written ++ [r], serialClosed := true }
      | .error e => .crashed e s

/-- Index of the last occurrence of `c` in a character list, if any
(the list analogue of Python `str.rfind`, with `none` for -1). -/
def lastIdxOf (c : Char) : List Char → Option Nat
  | [] => none
  | a :: l =>
    match lastIdxOf c l with
    | some i => some (i + 1)
    | none => if a = c then some 0 else none

/-- Python `os.path.splitext` (posix flavour, `sep='/'`, `extsep='.'`):
split at the last dot, provided it lies after the last path separator and at
least one character strictly between the separator and the dot is not itself
a dot (so leading dots of the basename never start an extension).  Python
works with `sepIndex = p.rfind(sep)` (-1 when absent) and scans from
`sepIndex + 1`; we track `fnameIdx = sepIndex + 1` directly as a `Nat`. -/
def splitext (p : String) : String × String :=
  let l := p.data
  let fnameIdx : Nat :=
    match lastIdxOf '/' l with
    | none => 0
    | some i => i + 1
  match lastIdxOf '.' l with
  | none => (p, "")
  | some d =>
    if fnameIdx ≤ d then
      if ((l.drop fnameIdx).take (d - fnameIdx)).any (fun c => c ≠ '.') then
        (⟨l.take d⟩, ⟨l.drop d⟩)
      else (p, "")
    else (p, "")

/-- Python `os.path.join` for two components (posix): an absolute second
component replaces the first; otherwise a separator is inserted unless the
first component is empty or already ends in one. -/
def pathJoin (a b : String) : String :=
  if b.data.head? = some '/' then b
  else if a.data = [] ∨ a.data.getLast? = some '/' then a ++ b
  else a ++ "/" ++ b

/-- The sequence of file names tried by the collision-avoidance loop of
`log_file` (lines 112-117): first the caller-supplied `outfile` itself, then
f-string rewrites `f"{file_name}_{n}.csv"` for `n = 1, 2, ...` where
`file_name` is the stem returned by `splitext`. -/
def candName (outfile file_name : String) : Nat → String
  | 0 => outfile
  | n + 1 => file_name ++ "_" ++ Nat.repr (n + 1) ++ ".csv"

/-- Bounded unfolding of the `while os.path.exists(new_filepath):` loop:
starting at candidate index `k`, return the first index whose candidate is
not among the taken paths; `none` when the fuel runs out (proved unreachable
for the fuel used by `log_file`, see `searchFree_total_of_injective`). -/
def searchFree (taken : List String) (cand : Nat → String) : Nat → Nat → Option Nat
  | 0, _ => none
  | fuel + 1, k =>
    if taken.contains (cand k) then searchFree taken cand fuel (k + 1) else some k

/-- One line of a CSV log file: the fixed header row, or a data row holding
one Reading. -/
inductive LogRecord where
  | headerRow
  | dataRow (r : Row)
deriving DecidableEq

/-- Filesystem state: the directories that exist and the files that exist
with their contents. -/
structure FS where
  dirs : List String
  files : List (String × List LogRecord)
deriving DecidableEq

/-- All paths for which `os.path.exists` answers true. -/
def existsPaths (fs : FS) : List String := fs.files.map Prod.fst ++ fs.dirs

/-- Effect of `os.makedirs(d, exist_ok=True)` when it succeeds. -/
def addDir (fs : FS) (d : String) : FS :=
  { fs with dirs := if fs.dirs.contains d then fs.dirs else d :: fs.dirs }

/-- Appending one record to the file at path `p` in append mode: extend the
file if it exists, create it with just that record otherwise. -/
def appendRecord :
    List (String × List LogRecord) → String → LogRecord →
      List (String × List LogRecord)
  | [], p, r => [(p, [r])]
  | (q, rs) :: rest, p, r =>
    if q = p then (q, rs ++ [r]) :: rest else (q, rs) :: appendRecord rest p r

/-- Contents of the file at path `p`, if it exists. -/
def fileRows : List (String × List LogRecord) → String → Option (List LogRecord)
  | [], _ => none
  | (q, rs) :: rest, p => if q = p then some rs else fileRows rest p

/-- The header field list of line 123 of `csv_log.py`. -/
def header : List String :=
  ["Time", "Voltage in V", "Current in A", "Power in W", "Energy in Wh",
   "High Voltage Alarm", "Low Voltage Alarm"]

/-- How `csv.writer.writerow` renders a row none of whose fields contains a
quote, comma or line break: the fields joined by commas (the `\r\n` line
terminator then follows). -/
def renderCsvRow (fields : List String) : String := String.intercalate "," fields

/-- Python `str.lower` on the ASCII strings involved here: lower-case each
character.  (The core `String.toLower` is extensionally the same map, but
its position-based recursion does not reduce in the kernel, so we map over
the character list directly.) -/
def strLower (s : String) : String := ⟨s.data.map Char.toLower⟩

/-- Lines 109-128 of `log_file`: the collision-avoidance loop followed by
the header write, on the filesystem state `fs2` reached after the two
`os.makedirs` calls.  The while-loop
`while os.path.exists(new_filepath): ...` is unfolded with fuel
`(existsPaths fs2).length + 1`, which is proved sufficient whenever the
extension check has passed (`log_file_core_ne_fuelExhausted`); the `none`
fallback is a model artifact on that dead branch.  The trailing
`open(new_filepath, 'a')` is modelled as failing with `FileNotFoundError`
(an `OSError`) exactly when the `log_files` folder does not exist, and
otherwise creating or extending the file with the header row. -/
def log_file_core (outfile file_name new_folder_path : String) (fs2 : FS) :
    Except PyError String × FS :=
  let cand := fun k => pathJoin new_folder_path (candName outfile file_name k)
  match searchFree (existsPaths fs2) cand ((existsPaths fs2).length + 1) 0 with
  | none => (.error .loopFuelExhausted, fs2)
  | some k =>
    let new_filepath := cand k
    -- lines 122-126: write the header row
    if fs2.dirs.contains new_folder_path then
      (.ok new_filepath,
       { fs2 with files := appendRecord fs2.files new_filepath .headerRow })
    else (.error .osError, fs2)

/-- The function `log_file` of `csv_log.py` (lines 77-128), with the
filesystem passed explicitly and returned alongside the result (Python
exceptions do not roll back filesystem effects).  `mkdirFails` says whether
`os.makedirs` on the `log_files` folder raises an `OSError` this run; the
script catches that error and only prints it (lines 104-107), so on failure
the folder is simply not created. -/
def log_file (outfile : String) (dir : String) (mkdirFails : Bool) (fs : FS) :
    Except PyError String × FS :=
  -- line 93: os.makedirs(dir, exist_ok=True)
  let fs1 := addDir fs dir
  -- line 96: file_name, extension = os.path.splitext(outfile)
  let file_name := (splitext outfile).1
  let extension := (splitext outfile).2
  -- lines 97-98: raise ValueError unless the extension lowercases to ".csv"
  if strLower extension ≠ ".csv" then (.error .valueError, fs1)
  else
    -- lines 101-107
    let new_folder_path := pathJoin dir "log_files"
    let fs2 := if mkdirFails then fs1 else addDir fs1 new_folder_path
    -- lines 109-128
    log_file_core outfile file_name new_folder_path fs2

/-- The startup part of `main` (lines 9-12) followed by the polling loop:
`log_file()` runs before any logging starts, and an exception it raises
escapes `main` (there is no handler), so the process terminates without
writing anything. -/
def pzemMain (outfile dir : String) (mkdirFails : Bool) (fs : FS) (now : String)
    (cycles : List CycleInput) : LoopOutcome × FS :=
  match log_file outfile dir mkdirFails fs with
  | (.error e, fs') => (.crashed e ⟨[], false⟩, fs')
  | (.ok _, fs') => (runCycles now cycles ⟨[], false⟩, fs')

/-- Numeric value of a decimal digit character; on the characters produced
by `Nat.digitChar` for digits 0-9 this is its inverse. -/
def digitVal (c : Char) : Nat := c.toNat - 48

/-- Value of a decimal digit string appended to an accumulator (Horner
evaluation); used to invert `Nat.toDigits`. -/
def decodeFrom (a : Nat) (l : List Char) : Nat :=
  l.foldl (fun x c => 10 * x + digitVal c) a

example :
    read_pzem_data
      (fun a => .ok ((([23015, 102, 456, 0, 1234, 0, 0, 0] : List Nat).getD a 0)))
      "2024-01-01 12:00:00" =
    .ok { row_time := "2024-01-01 12:00:00", voltage := 23015/100, current := 102/100,
          power_w := 456/10, energy_wh := 1234, high_voltage_alarm := 0,
          low_voltage_alarm := 0 } := by
  norm_num [read_pzem_data, readBody, bind, Except.bind, pure, Except.pure]

example :
    read_pzem_data (fun _ => .error .illegalRequest) "t" =
      .error (.unboundLocal "row_data") := by
  decide

example : splitext "data.txt" = ("data", ".txt") := by decide
example : splitext "pzem_logs.csv" = ("pzem_logs", ".csv") := by decide
example : splitext ".csv" = (".csv", "") := by decide

example :
    log_file "pzem_logs.csv" "./" false ⟨[], []⟩ =
      (.ok "./log_files/pzem_logs.csv",
       ⟨["./log_files", "./"],
        [("./log_files/pzem_logs.csv", [.headerRow])]⟩) := by
  decide

example :
    (log_file "pzem_logs.csv" "./" false
        ⟨["./", "./log_files"], [("./log_files/pzem_logs.csv", [.headerRow])]⟩).1 =
      .ok "./log_files/pzem_logs_1.csv" := by
  decide

example :
    (log_file "data.txt" "./" false ⟨[], []⟩).1 = .error .valueError := by
  decide

lemma digitVal_digitChar : ∀ n < 10, digitVal (Nat.digitChar n) = n := by decide

lemma decodeFrom_toDigitsCore :
    ∀ (fuel n : Nat), n < fuel → ∀ ds : List Char,
      decodeFrom 0 (Nat.toDigitsCore 10 fuel n ds) = decodeFrom n ds := by
  intro fuel
  induction fuel with
  | zero => intro n hn; omega
  | succ fuel ih =>
    intro n hn ds
    simp only [Nat.toDigitsCore]
    by_cases h : n / 10 = 0
    · have hn10 : n < 10 := by omega
      simp only [h, if_true]
      simp only [decodeFrom, List.foldl_cons]
      rw [digitVal_digitChar (n % 10) (Nat.mod_lt n (by omega))]
      have hmod : n % 10 = n := Nat.mod_eq_of_lt hn10
      simp [hmod]
    · simp only [h, if_false]
      have hdiv : n / 10 < fuel := by omega
      rw [ih (n / 10) hdiv]
      simp only [decodeFrom, List.foldl_cons]
      rw [digitVal_digitChar (n % 10) (Nat.mod_lt n (by omega))]
      congr 1
      omega

lemma decodeFrom_toDigits (n : Nat) : decodeFrom 0 (Nat.toDigits 10 n) = n := by
  have := decodeFrom_toDigitsCore (n + 1) n (Nat.lt_succ_self n) []
  simpa [Nat.toDigits, decodeFrom] using this

/-- Two distinct naturals have distinct decimal renderings, so the f-string
file names `f"{file_name}_{n}.csv"` tried by the loop never repeat. -/
lemma repr_injective : Function.Injective Nat.repr := by
  intro m n h
  have hd : Nat.toDigits 10 m = Nat.toDigits 10 n := by
    have h2 : (Nat.toDigits 10 m).asString = (Nat.toDigits 10 n).asString := h
    have h3 := congrArg String.data h2
    simpa [List.asString] using h3
  calc m = decodeFrom 0 (Nat.toDigits 10 m) := (decodeFrom_toDigits m).symm
    _ = decodeFrom 0 (Nat.toDigits 10 n) := by rw [hd]
    _ = n := decodeFrom_toDigits n

lemma String.eq_of_data_eq {s t : String} (h : s.data = t.data) : s = t := by
  cases s; cases t; exact congrArg String.mk h

lemma lastIdxOf_drop {c : Char} :
    ∀ {l : List Char} {i : Nat}, lastIdxOf c l = some i →
      l.drop i = c :: l.drop (i + 1) := by
  intro l
  induction l with
  | nil => intro i h; simp [lastIdxOf] at h
  | cons a l ih =>
    intro i h
    simp only [lastIdxOf] at h
    cases hrec : lastIdxOf c l with
    | some j =>
      rw [hrec] at h
      cases h
      simpa using ih hrec
    | none =>
      rw [hrec] at h
      by_cases hac : a = c
      · simp only [hac, if_true] at h
        cases h
        simp [hac]
      · simp [hac] at h

lemma splitext_append (p : String) : (splitext p).1 ++ (splitext p).2 = p := by
  apply String.eq_of_data_eq
  simp only [splitext]
  cases hdot : lastIdxOf '.' p.data with
  | none => simp [String.data_append]
  | some d =>
    simp only
    split
    · split
      · simp [String.data_append, List.take_append_drop]
      · simp [String.data_append]
    · simp [String.data_append]

lemma data_underscore : ("_" : String).data = ['_'] := rfl

lemma data_dotcsv : (".csv" : String).data = ['.', 'c', 's', 'v'] := rfl

lemma splitext_snd_dot (p : String) :
    (splitext p).2 = "" ∨ ∃ t, (splitext p).2.data = '.' :: t := by
  simp only [splitext]
  cases hdot : lastIdxOf '.' p.data with
  | none => left; rfl
  | some d =>
    simp only
    split
    · split
      · right
        refine ⟨p.data.drop (d + 1), ?_⟩
        exact lastIdxOf_drop hdot
      · left; rfl
    · left; rfl

lemma ext_dot_of_valid (outfile : String)
    (h : strLower (splitext outfile).2 = ".csv") :
    ∃ t, (splitext outfile).2.data = '.' :: t := by
  rcases splitext_snd_dot outfile with he | hd
  · rw [he] at h
    exact absurd h (by decide)
  · exact hd

lemma candName_inj (outfile file_name ext : String) (t : List Char)
    (ho : outfile.data = file_name.data ++ ext.data) (he : ext.data = '.' :: t) :
    Function.Injective (candName outfile file_name) := by
  intro i j h
  have hd := congrArg String.data h
  match i, j with
  | 0, 0 => rfl
  | 0, j + 1 =>
    exfalso
    simp only [candName, String.data_append, data_underscore, data_dotcsv, ho, he,
      List.append_assoc, List.singleton_append] at hd
    have := List.append_cancel_left hd
    simp at this
  | i + 1, 0 =>
    exfalso
    simp only [candName, String.data_append, data_underscore, data_dotcsv, ho, he,
      List.append_assoc, List.singleton_append] at hd
    have := List.append_cancel_left hd
    simp at this
  | i + 1, j + 1 =>
    simp only [candName, String.data_append, data_underscore, data_dotcsv,
      List.append_assoc, List.singleton_append] at hd
    have h1 := List.append_cancel_left hd
    injection h1 with hhead htail
    have h2 := List.append_cancel_right htail
    have h3 := repr_injective (String.eq_of_data_eq h2)
    omega

lemma candName_head (outfile file_name ext : String) (t : List Char)
    (ho : outfile.data = file_name.data ++ ext.data) (he : ext.data = '.' :: t)
    (k : Nat) :
    ((candName outfile file_name k).data.head? = some '/') ↔
      (file_name.data.head? = some '/') := by
  cases k with
  | zero =>
    simp only [candName, ho, he]
    cases file_name.data with
    | nil => simp
    | cons a l => simp
  | succ k =>
    simp only [candName, String.data_append, data_underscore, List.append_assoc,
      List.singleton_append]
    cases file_name.data with
    | nil => simp
    | cons a l => simp

lemma pathJoin_inj (folder b1 b2 : String)
    (hb : (b1.data.head? = some '/') ↔ (b2.data.head? = some '/'))
    (h : pathJoin folder b1 = pathJoin folder b2) : b1 = b2 := by
  by_cases h1 : b1.data.head? = some '/'
  · have h2 := hb.mp h1
    simpa [pathJoin, h1, h2] using h
  · have h2 : ¬ b2.data.head? = some '/' := fun hx => h1 (hb.mpr hx)
    simp only [pathJoin, h1, h2, if_false] at h
    by_cases hf : folder.data = [] ∨ folder.data.getLast? = some '/'
    · rw [if_pos hf, if_pos hf] at h
      have hdata := congrArg String.data h
      simp only [String.data_append] at hdata
      exact String.eq_of_data_eq (List.append_cancel_left hdata)
    · rw [if_neg hf, if_neg hf] at h
      have hdata := congrArg String.data h
      simp only [String.data_append, List.append_assoc] at hdata
      exact String.eq_of_data_eq
        (List.append_cancel_left (List.append_cancel_left hdata))

lemma candidate_inj (folder outfile file_name ext : String) (t : List Char)
    (ho : outfile.data = file_name.data ++ ext.data) (he : ext.data = '.' :: t) :
    Function.Injective (fun k => pathJoin folder (candName outfile file_name k)) := by
  intro i j h
  apply candName_inj outfile file_name ext t ho he
  apply pathJoin_inj folder _ _ _ h
  rw [candName_head outfile file_name ext t ho he i,
    candName_head outfile file_name ext t ho he j]

lemma searchFree_some_not_taken {taken : List String} {cand : Nat → String} :
    ∀ {fuel k j : Nat}, searchFree taken cand fuel k = some j →
      taken.contains (cand j) = false := by
  intro fuel
  induction fuel with
  | zero => intro k j h; simp [searchFree] at h
  | succ fuel ih =>
    intro k j h
    simp only [searchFree] at h
    by_cases hc : taken.contains (cand k) = true
    · rw [if_pos hc] at h
      exact ih h
    · rw [if_neg hc] at h
      cases h
      simpa using hc

lemma searchFree_some_bounds {taken : List String} {cand : Nat → String} :
    ∀ {fuel k j : Nat}, searchFree taken cand fuel k = some j →
      k ≤ j ∧ j < k + fuel := by
  intro fuel
  induction fuel with
  | zero => intro k j h; simp [searchFree] at h
  | succ fuel ih =>
    intro k j h
    simp only [searchFree] at h
    by_cases hc : taken.contains (cand k) = true
    · rw [if_pos hc] at h
      have := ih h
      omega
    · rw [if_neg hc] at h
      cases h
      omega

lemma searchFree_none_forall {taken : List String} {cand : Nat → String} :
    ∀ {fuel k : Nat}, searchFree taken cand fuel k = none →
      ∀ i < fuel, taken.contains (cand (k + i)) = true := by
  intro fuel
  induction fuel with
  | zero => intro k _ i hi; omega
  | succ fuel ih =>
    intro k h i hi
    simp only [searchFree] at h
    by_cases hc : taken.contains (cand k) = true
    · rw [if_pos hc] at h
      cases i with
      | zero => simpa using hc
      | succ i =>
        have := ih h i (by omega)
        simpa [Nat.add_assoc, Nat.add_comm 1 i] using this
    · rw [if_neg hc] at h
      cases h

/-- Pigeonhole: with injective candidate names, fuel `taken.length + 1`
always suffices for the collision-avoidance loop to find a free name. -/
lemma searchFree_total (taken : List String) (cand : Nat → String)
    (hinj : Function.Injective cand) :
    ∃ j, searchFree taken cand (taken.length + 1) 0 = some j := by
  cases hs : searchFree taken cand (taken.length + 1) 0 with
  | some j => exact ⟨j, rfl⟩
  | none =>
    exfalso
    have hall := searchFree_none_forall hs
    have hmem : ∀ i ≤ taken.length, cand i ∈ taken := by
      intro i hi
      have := hall i (by omega)
      simpa using this
    have hsub : (Finset.range (taken.length + 1)).image cand ⊆ taken.toFinset := by
      intro x hx
      simp only [Finset.mem_image, Finset.mem_range] at hx
      obtain ⟨i, hi, rfl⟩ := hx
      simpa [List.mem_toFinset] using hmem i (by omega)
    have hcard : taken.length + 1 ≤ taken.toFinset.card := by
      calc taken.length + 1 = (Finset.range (taken.length + 1)).card :=
            (Finset.card_range _).symm
        _ = ((Finset.range (taken.length + 1)).image cand).card :=
            (Finset.card_image_of_injective _ hinj).symm
        _ ≤ taken.toFinset.card := Finset.card_le_card hsub
    have := taken.toFinset_card_le
    omega

lemma mem_existsPaths_addDir {fs : FS} {d x : String}
    (h : x ∈ existsPaths fs) : x ∈ existsPaths (addDir fs d) := by
  simp only [existsPaths, addDir, List.mem_append] at h ⊢
  rcases h with h | h
  · exact Or.inl h
  · right
    split
    · exact h
    · exact List.mem_cons_of_mem _ h

lemma fileRows_appendRecord {files : List (String × List LogRecord)} {p : String}
    (hp : ¬ p ∈ files.map Prod.fst) (r : LogRecord) :
    fileRows (appendRecord files p r) p = some [r] := by
  induction files with
  | nil => simp [appendRecord, fileRows]
  | cons f rest ih =>
    obtain ⟨q, rs⟩ := f
    simp only [List.map_cons, List.mem_cons] at hp
    push_neg at hp
    obtain ⟨hq, hrest⟩ := hp
    simp only [appendRecord]
    rw [if_neg (fun hx => hq hx.symm)]
    simp only [fileRows]
    rw [if_neg (fun hx => hq hx.symm)]
    exact ih hrest

/-- C1: For every successful poll cycle (all register reads return without
error), the decoded values satisfy
`power_w = ((power_high << 16) + power_low) * 0.1` and
`energy_wh = (energy_high << 16) + energy_low`, with the low word taken as
the least-significant 16 bits; in particular `power_low = 456`,
`power_high = 0` yields `power_w = 45.6`. -/
theorem C1_decoding_deterministic (v : Nat → Nat) (now : String) :
    ∃ r, read_pzem_data (fun a => .ok (v a)) now = .ok r ∧
      r.power_w = (((v 3 <<< 16) + v 2 : Nat) : ℚ) * (1 / 10) ∧
      r.energy_wh = (((v 5 <<< 16) + v 4 : Nat) : ℚ) ∧
      (v 2 = 456 → v 3 = 0 → r.power_w = 456 / 10) := by
  refine ⟨_, rfl, rfl, rfl, ?_⟩
  intro h2 h3
  show (((v 3 <<< 16) + v 2 : Nat) : ℚ) * (1 / 10) = 456 / 10
  rw [h2, h3]
  norm_num [Nat.shiftLeft_eq]

/-- Witness for C1 at a concrete successful cycle with
`power_low = 456, power_high = 0`. -/
theorem C1_decoding_deterministic_witness :
    ∃ r, read_pzem_data
        (fun a => .ok (([0, 0, 456, 0, 1234, 0, 0, 0] : List Nat).getD a 0)) "t" =
      .ok r ∧ r.power_w = 456 / 10 := by
  obtain ⟨r, hok, _, _, hx⟩ :=
    C1_decoding_deterministic
      (fun a => ([0, 0, 456, 0, 1234, 0, 0, 0] : List Nat).getD a 0) "t"
  exact ⟨r, hok, hx rfl rfl⟩

/-- C2 is a code bug: on a cycle whose read raises `IllegalRequestError`
the generator does not skip the cycle and continue — the `finally: yield
row_data` clause evaluates the never-assigned `row_data` and the resulting
`UnboundLocalError` escapes `main` (its handler only catches
`KeyboardInterrupt`), terminating the process.  On the schedule
[failing cycle, succeeding cycle] the process crashes during the first
cycle with zero rows written, instead of continuing and writing one row as
the claim (and the docstring intent) requires. -/
theorem C2_illegal_request_crashes_process :
    runCycles "t"
      [⟨fun _ => .error .illegalRequest, .noIntr⟩,
       ⟨fun _ => .ok 0, .noIntr⟩] ⟨[], false⟩ =
    .crashed (.unboundLocal "row_data") ⟨[], false⟩ := by
  decide

/-- C4 counterexample: on a cycle failing with a transport error other than
the illegal-request error (here `NoResponseError`), the exception that
propagates out of the read path is `UnboundLocalError("row_data")` raised by
the generator cleanup, not the original transport error. -/
theorem C4_counterexample :
    read_pzem_data (fun _ => .error (.other "NoResponseError")) "t" =
        .error (.unboundLocal "row_data") ∧
      read_pzem_data (fun _ => .error (.other "NoResponseError")) "t" ≠
        .error (.modbus (.other "NoResponseError")) := by
  constructor
  · decide
  · decide

/-- C4 amended: for every poll cycle in which a register read raises an
error other than the illegal-request error, the failure is not silently
absorbed and the process terminates rather than continue logging — but what
propagates out of the read path is the `UnboundLocalError` raised by the
generator cleanup (the original error survives only as its exception
context), not the original error itself. -/
theorem C4_other_error_fatal (resp : Nat → Except ModbusError Nat) (now : String)
    (e : ModbusError) (_hne : e ≠ .illegalRequest)
    (hfail : readBody resp now = .error e)
    (rest : List CycleInput) (s : LoopState) :
    runCycles now (⟨resp, .noIntr⟩ :: rest) s =
      .crashed (.unboundLocal "row_data") s := by
  simp only [runCycles, read_pzem_data, hfail]

/-- Witness for C4 on a concrete cycle failing with `NoResponseError`. -/
theorem C4_other_error_fatal_witness :
    runCycles "t" [⟨fun _ => .error (.other "NoResponseError"), .noIntr⟩]
        ⟨[], false⟩ =
      .crashed (.unboundLocal "row_data") ⟨[], false⟩ :=
  C4_other_error_fatal (fun _ => .error (.other "NoResponseError")) "t"
    (.other "NoResponseError") (by decide) (by decide) [] ⟨[], false⟩

/-- C7 is a code bug: an operator interrupt that lands while a register
read is executing (inside the generator try-block) does not lead to a
clean shutdown.  The `finally: yield row_data` clause turns it into an
`UnboundLocalError`, which the `except KeyboardInterrupt` handler of `main`
does not match: the process crashes and `instrument.serial.close()` never
runs (`serialClosed` stays `false`), instead of flushing, closing the
transport and exiting with success as the claim requires.  (An interrupt
landing between cycles does take the clean path — see the model of
`runCycles` — but the claim asserts the handle is always closed.) -/
theorem C7_interrupt_during_read_crashes :
    runCycles "t" [⟨fun _ => .ok 0, .duringRead⟩] ⟨[], false⟩ =
      .crashed (.unboundLocal "row_data") ⟨[], false⟩ := by
  decide

lemma log_file_badext (outfile dir : String) (mkF : Bool) (fs : FS)
    (h : strLower (splitext outfile).2 ≠ ".csv") :
    log_file outfile dir mkF fs = (.error .valueError, addDir fs dir) := by
  simp only [log_file, h, ne_eq, not_false_eq_true, if_true]

lemma mem_addDir_self (fs : FS) (d : String) : d ∈ (addDir fs d).dirs := by
  simp only [addDir]
  split
  · rename_i h
    simpa using h
  · exact List.mem_cons_self _ _

lemma mem_addDir_mono (fs : FS) (d x : String) (h : x ∈ fs.dirs) :
    x ∈ (addDir fs d).dirs := by
  simp only [addDir]
  split
  · exact h
  · exact List.mem_cons_of_mem _ h

/-- C5: for every base name whose extension is not `.csv` (compared
case-insensitively), `log_file` fails with `ValueError` and neither creates
nor returns a log file (the file list of the filesystem is unchanged); in
particular this is the case for base name "data.txt" (see the witness). -/
theorem C5_bad_extension_fails (outfile dir : String) (mkF : Bool) (fs : FS)
    (h : strLower (splitext outfile).2 ≠ ".csv") :
    log_file outfile dir mkF fs = (.error .valueError, addDir fs dir) ∧
      ((log_file outfile dir mkF fs).2).files = fs.files := by
  have hb := log_file_badext outfile dir mkF fs h
  refine ⟨hb, ?_⟩
  rw [hb]
  rfl

/-- Witness for C5 at base name "data.txt". -/
theorem C5_bad_extension_fails_witness :
    log_file "data.txt" "./" false ⟨[], []⟩ = (.error .valueError, ⟨["./"], []⟩) ∧
      ((log_file "data.txt" "./" false ⟨[], []⟩).2).files = ([] : List (String × List LogRecord)) :=
  C5_bad_extension_fails "data.txt" "./" false ⟨[], []⟩ (by decide)

/-- C9: when `log_file` raises the invalid-extension `ValueError`, the
directory argument `dir` has nevertheless already been created, because the
recursive directory creation of line 93 runs before the extension check of
lines 96-98 — the failure is not atomic with respect to filesystem state. -/
theorem C9_dir_created_despite_valueError (outfile dir : String) (mkF : Bool)
    (fs : FS) (h : strLower (splitext outfile).2 ≠ ".csv") :
    (log_file outfile dir mkF fs).1 = .error .valueError ∧
      dir ∈ ((log_file outfile dir mkF fs).2).dirs := by
  rw [log_file_badext outfile dir mkF fs h]
  exact ⟨rfl, mem_addDir_self fs dir⟩

/-- Witness for C9 at base name "data.txt" on an empty filesystem. -/
theorem C9_dir_created_despite_valueError_witness :
    (log_file "data.txt" "./" false ⟨[], []⟩).1 = .error .valueError ∧
      "./" ∈ ((log_file "data.txt" "./" false ⟨[], []⟩).2).dirs :=
  C9_dir_created_despite_valueError "data.txt" "./" false ⟨[], []⟩ (by decide)

lemma cand_inj_of_valid (outfile folder : String)
    (hv : strLower (splitext outfile).2 = ".csv") :
    Function.Injective
      (fun k => pathJoin folder (candName outfile (splitext outfile).1 k)) := by
  obtain ⟨t, ht⟩ := ext_dot_of_valid outfile hv
  have ho : outfile.data = (splitext outfile).1.data ++ (splitext outfile).2.data := by
    have h1 := congrArg String.data (splitext_append outfile)
    simp only [String.data_append] at h1
    exact h1.symm
  exact candidate_inj folder outfile (splitext outfile).1 (splitext outfile).2 t ho ht

lemma log_file_core_ok {outfile file_name folder p : String} {fs2 fs' : FS}
    (h : log_file_core outfile file_name folder fs2 = (.ok p, fs')) :
    (existsPaths fs2).contains p = false ∧
      fs2.dirs.contains folder = true ∧
      fs' = { fs2 with files := appendRecord fs2.files p .headerRow } := by
  simp only [log_file_core] at h
  split at h
  · simp at h
  · rename_i k hsf
    by_cases hc : fs2.dirs.contains folder = true
    · rw [if_pos hc] at h
      simp only [Prod.mk.injEq, Except.ok.injEq] at h
      obtain ⟨hp, hfs⟩ := h
      subst hp
      exact ⟨searchFree_some_not_taken hsf, hc, hfs.symm⟩
    · rw [if_neg hc] at h
      simp at h

lemma log_file_core_dirs (outfile file_name folder : String) (fs2 : FS) :
    ((log_file_core outfile file_name folder fs2).2).dirs = fs2.dirs := by
  simp only [log_file_core]
  split
  · rfl
  · split
    · rfl
    · rfl

lemma log_file_core_no_folder {outfile file_name folder : String} {fs2 : FS}
    (hinj : Function.Injective
      (fun k => pathJoin folder (candName outfile file_name k)))
    (hnc : fs2.dirs.contains folder = false) :
    log_file_core outfile file_name folder fs2 = (.error .osError, fs2) := by
  obtain ⟨j, hj⟩ := searchFree_total (existsPaths fs2) _ hinj
  simp only [log_file_core, hj]
  rw [if_neg (fun hx => Bool.false_ne_true (hnc ▸ hx))]

/-- The `loopFuelExhausted` artifact never occurs on any reachable path of
`log_file`: once the extension check has passed, the candidate names are
injective and the fuel bound is sufficient. -/
lemma log_file_core_ne_fuelExhausted (outfile folder : String) (fs2 : FS)
    (hv : strLower (splitext outfile).2 = ".csv") :
    (log_file_core outfile (splitext outfile).1 folder fs2).1 ≠
      .error .loopFuelExhausted := by
  obtain ⟨j, hj⟩ :=
    searchFree_total (existsPaths fs2) _ (cand_inj_of_valid outfile folder hv)
  simp only [log_file_core, hj]
  split
  · simp
  · simp

lemma log_file_valid (outfile dir : String) (mkF : Bool) (fs : FS)
    (hv : strLower (splitext outfile).2 = ".csv") :
    log_file outfile dir mkF fs =
      log_file_core outfile (splitext outfile).1 (pathJoin dir "log_files")
        (if mkF then addDir fs dir
         else addDir (addDir fs dir) (pathJoin dir "log_files")) := by
  simp only [log_file, hv, ne_eq, not_true_eq_false, if_false]

lemma mem_existsPaths_ite {x : String} (b : Bool) (fs1 : FS) (d : String)
    (h : x ∈ existsPaths fs1) :
    x ∈ existsPaths (if b then fs1 else addDir fs1 d) := by
  cases b
  · simpa using mem_existsPaths_addDir h
  · simpa using h

/-- C3: for every directory state, a successful `log_file` call returns a
path that did not name an existing file before the call (the
collision-avoidance loop tries `base`, `base_1`, `base_2`, ... and only
stops on an unused name); in particular with `pzem_logs.csv` already
present a second call produces `pzem_logs_1.csv` and a third produces
`pzem_logs_2.csv`. -/
theorem C3_never_picks_existing_file (outfile dir : String) (mkF : Bool)
    (fs : FS) (p : String) (fs' : FS)
    (hok : log_file outfile dir mkF fs = (.ok p, fs')) :
    ¬ p ∈ existsPaths fs ∧
      (log_file "pzem_logs.csv" "./" false
          ⟨["./", "./log_files"],
           [("./log_files/pzem_logs.csv", [.headerRow])]⟩).1 =
        .ok "./log_files/pzem_logs_1.csv" ∧
      (log_file "pzem_logs.csv" "./" false
          ⟨["./", "./log_files"],
           [("./log_files/pzem_logs.csv", [.headerRow]),
            ("./log_files/pzem_logs_1.csv", [.headerRow])]⟩).1 =
        .ok "./log_files/pzem_logs_2.csv" := by
  refine ⟨?_, by decide, by decide⟩
  intro hmem
  by_cases hv : strLower (splitext outfile).2 = ".csv"
  · rw [log_file_valid outfile dir mkF fs hv] at hok
    obtain ⟨hfree, -, -⟩ := log_file_core_ok hok
    have hmem2 : p ∈ existsPaths
        (if mkF then addDir fs dir
         else addDir (addDir fs dir) (pathJoin dir "log_files")) :=
      mem_existsPaths_ite mkF (addDir fs dir) (pathJoin dir "log_files")
        (@mem_existsPaths_addDir fs dir p hmem)
    exact absurd hmem2 (by simpa using hfree)
  · rw [log_file_badext outfile dir mkF fs hv] at hok
    simp at hok

/-- Witness for C3 on an empty filesystem with the default base name. -/
theorem C3_never_picks_existing_file_witness :
    ¬ "./log_files/pzem_logs.csv" ∈ existsPaths ⟨[], []⟩ ∧
      (log_file "pzem_logs.csv" "./" false
          ⟨["./", "./log_files"],
           [("./log_files/pzem_logs.csv", [.headerRow])]⟩).1 =
        .ok "./log_files/pzem_logs_1.csv" ∧
      (log_file "pzem_logs.csv" "./" false
          ⟨["./", "./log_files"],
           [("./log_files/pzem_logs.csv", [.headerRow]),
            ("./log_files/pzem_logs_1.csv", [.headerRow])]⟩).1 =
        .ok "./log_files/pzem_logs_2.csv" :=
  C3_never_picks_existing_file "pzem_logs.csv" "./" false ⟨[], []⟩
    "./log_files/pzem_logs.csv"
    ⟨["./log_files", "./"], [("./log_files/pzem_logs.csv", [.headerRow])]⟩
    (by decide)

/-- C6: every successful `log_file` call creates the chosen file with the
fixed header row as its first (and only) record, and that header renders
byte for byte as
`Time,Voltage in V,Current in A,Power in W,Energy in Wh,High Voltage Alarm,Low Voltage Alarm`. -/
theorem C6_header_is_first_line (outfile dir : String) (mkF : Bool)
    (fs : FS) (p : String) (fs' : FS)
    (hok : log_file outfile dir mkF fs = (.ok p, fs')) :
    fileRows fs'.files p = some [.headerRow] ∧
      renderCsvRow header =
        "Time,Voltage in V,Current in A,Power in W,Energy in Wh,High Voltage Alarm,Low Voltage Alarm" := by
  refine ⟨?_, by decide⟩
  by_cases hv : strLower (splitext outfile).2 = ".csv"
  · rw [log_file_valid outfile dir mkF fs hv] at hok
    obtain ⟨hfree, -, hfs'⟩ := log_file_core_ok hok
    subst hfs'
    apply fileRows_appendRecord
    intro hmemfiles
    have hmem2 : p ∈ existsPaths
        (if mkF then addDir fs dir
         else addDir (addDir fs dir) (pathJoin dir "log_files")) := by
      simp only [existsPaths, List.mem_append]
      exact Or.inl hmemfiles
    exact absurd hmem2 (by simpa using hfree)
  · rw [log_file_badext outfile dir mkF fs hv] at hok
    simp at hok

/-- Witness for C6 on an empty filesystem. -/
theorem C6_header_is_first_line_witness :
    fileRows
        (⟨["./log_files", "./"],
          [("./log_files/pzem_logs.csv", [.headerRow])]⟩ : FS).files
        "./log_files/pzem_logs.csv" = some [.headerRow] ∧
      renderCsvRow header =
        "Time,Voltage in V,Current in A,Power in W,Energy in Wh,High Voltage Alarm,Low Voltage Alarm" :=
  C6_header_is_first_line "pzem_logs.csv" "./" false ⟨[], []⟩
    "./log_files/pzem_logs.csv"
    ⟨["./log_files", "./"], [("./log_files/pzem_logs.csv", [.headerRow])]⟩
    (by decide)

/-- C8: `log_file` ensures the target directory and its `log_files`
subfolder exist (creating them) when creation succeeds; and whenever
creation of the `log_files` folder fails while the folder is genuinely
absent (a reason other than already existing), the call fails with an
`OSError` and the process does not start logging — `pzemMain` crashes
before writing any row, with the serial state untouched. -/
theorem C8_folder_creation_failure_fatal (outfile dir : String) (fs : FS)
    (now : String) (cycles : List CycleInput)
    (hv : strLower (splitext outfile).2 = ".csv")
    (habs : (addDir fs dir).dirs.contains (pathJoin dir "log_files") = false) :
    dir ∈ ((log_file outfile dir false fs).2).dirs ∧
      pathJoin dir "log_files" ∈ ((log_file outfile dir false fs).2).dirs ∧
      log_file outfile dir true fs = (.error .osError, addDir fs dir) ∧
      (pzemMain outfile dir true fs now cycles).1 =
        .crashed .osError ⟨[], false⟩ := by
  have hlf : log_file outfile dir false fs =
      log_file_core outfile (splitext outfile).1 (pathJoin dir "log_files")
        (addDir (addDir fs dir) (pathJoin dir "log_files")) := by
    rw [log_file_valid outfile dir false fs hv]
    rfl
  have hlt : log_file outfile dir true fs =
      log_file_core outfile (splitext outfile).1 (pathJoin dir "log_files")
        (addDir fs dir) := by
    rw [log_file_valid outfile dir true fs hv]
    rfl
  have hcore : log_file outfile dir true fs = (.error .osError, addDir fs dir) := by
    rw [hlt]
    exact log_file_core_no_folder
      (cand_inj_of_valid outfile (pathJoin dir "log_files") hv) habs
  refine ⟨?_, ?_, hcore, ?_⟩
  · rw [hlf, log_file_core_dirs]
    exact mem_addDir_mono _ _ _ (mem_addDir_self fs dir)
  · rw [hlf, log_file_core_dirs]
    exact mem_addDir_self _ _
  · simp only [pzemMain, hcore]

/-- Witness for C8 with the default base name and directory on an empty
filesystem. -/
theorem C8_folder_creation_failure_fatal_witness :
    "./" ∈ ((log_file "pzem_logs.csv" "./" false ⟨[], []⟩).2).dirs ∧
      pathJoin "./" "log_files" ∈
        ((log_file "pzem_logs.csv" "./" false ⟨[], []⟩).2).dirs ∧
      log_file "pzem_logs.csv" "./" true ⟨[], []⟩ =
        (.error .osError, addDir ⟨[], []⟩ "./") ∧
      (pzemMain "pzem_logs.csv" "./" true ⟨[], []⟩ "t" []).1 =
        .crashed .osError ⟨[], false⟩ :=
  C8_folder_creation_failure_fatal "pzem_logs.csv" "./" ⟨[], []⟩ "t" []
    (by decide) (by decide)

/-- C10: for every finite set of existing paths, the collision-avoidance
loop of `log_file` terminates: the candidate names are pairwise distinct
(the naming function is injective), and a name outside the existing set is
reached at an index bounded by the number of existing paths — at most one
step per existing entry. -/
theorem C10_collision_loop_terminates (fs : FS) (folder outfile : String)
    (hv : strLower (splitext outfile).2 = ".csv") :
    Function.Injective
        (fun k => pathJoin folder (candName outfile (splitext outfile).1 k)) ∧
      ∃ k, k ≤ (existsPaths fs).length ∧
        searchFree (existsPaths fs)
            (fun k => pathJoin folder (candName outfile (splitext outfile).1 k))
            ((existsPaths fs).length + 1) 0 = some k ∧
        (existsPaths fs).contains
            (pathJoin folder (candName outfile (splitext outfile).1 k)) = false := by
  have hinj := cand_inj_of_valid outfile folder hv
  refine ⟨hinj, ?_⟩
  obtain ⟨j, hj⟩ := searchFree_total (existsPaths fs) _ hinj
  obtain ⟨-, hlt⟩ := searchFree_some_bounds hj
  exact ⟨j, by omega, hj, searchFree_some_not_taken hj⟩

/-- Witness for C10 on a filesystem holding one colliding log file. -/
theorem C10_collision_loop_terminates_witness :
    Function.Injective
        (fun k =>
          pathJoin "./log_files" (candName "pzem_logs.csv" (splitext "pzem_logs.csv").1 k)) ∧
      ∃ k, k ≤ (existsPaths
            ⟨["./", "./log_files"],
             [("./log_files/pzem_logs.csv", [.headerRow])]⟩).length ∧
        searchFree
            (existsPaths
              ⟨["./", "./log_files"],
               [("./log_files/pzem_logs.csv", [.headerRow])]⟩)
            (fun k =>
              pathJoin "./log_files" (candName "pzem_logs.csv" (splitext "pzem_logs.csv").1 k))
            ((existsPaths
              ⟨["./", "./log_files"],
               [("./log_files/pzem_logs.csv", [.headerRow])]⟩).length + 1) 0 = some k ∧
        (existsPaths
            ⟨["./", "./log_files"],
             [("./log_files/pzem_logs.csv", [.headerRow])]⟩).contains
          (pathJoin "./log_files" (candName "pzem_logs.csv" (splitext "pzem_logs.csv").1 k)) =
          false :=
  C10_collision_loop_terminates
    ⟨["./", "./log_files"], [("./log_files/pzem_logs.csv", [.headerRow])]⟩
    "./log_files" "pzem_logs.csv" (by decide)
